import Mathlib

/-!
Verification development for the pyblish-qml application entry point
(`pyblish_qml/app.py`): the message listener loop, the client registry,
the window close policy and the readiness-gated show/hide orchestration.

The Python source is shallowly embedded: each Python function relevant to
the specification is translated into an executable Lean definition, and the
specified properties are stated and settled as theorems about those
definitions.
-/

/-- A single quote character, used in the diagnostic message the listener
prints for unknown command names. -/
def quoteChar : String := String.singleton (Char.ofNat 39)

/-- The diagnostic printed by `Application.listenLoop` for a command name that is
not in the dispatch table: the Python source runs
`print("'{name}' was unavailable.".format(**payload))`. -/
def unavailMsg (name : String) : String :=
  quoteChar ++ name ++ quoteChar ++ " was unavailable."

/-- A decoded wire envelope: the `payload` object of one line of channel
input, bearing a command `name` and an optional `args` sequence
(`payload.get("args", [])` in the source). Argument values are opaque to the
listener; they are modelled as strings. -/
structure Envelope where
  name : String
  args : Option (List String)
  deriving DecidableEq, Repr

/-- One inbound line as seen by the listener loop.  `malformed` stands for any
line on which `json.loads(line)["payload"]["name"]` raises (not well-formed
JSON, or a missing `payload` or `name` key); `env` is a structurally
well-formed line carrying its decoded payload. -/
inductive Line where
  | malformed
  | env (e : Envelope)
  deriving DecidableEq, Repr

/-- Observable effects of the listener loop: a printed diagnostic, or a
cross-thread signal emission (`getattr(self, signal).emit(*args)`). -/
inductive LEvent where
  | log (msg : String)
  | dispatch (signal : String) (args : List String)
  deriving DecidableEq, Repr

/-- The fixed name-to-signal dispatch table of `Application.listenLoop`:
`{"show": "shown", "hide": "hidden", "quit": "quitted"}.get(payload["name"])`. -/
def signalFor (name : String) : Option String :=
  if name = "show" then some "shown"
  else if name = "hide" then some "hidden"
  else if name = "quit" then some "quitted"
  else none

/-- One iteration of the `_listen` loop body, given the decoded line.
A structurally malformed line raises outside any handler (the `try` in the
source wraps only the `emit` call), which the model reports as `Except.error`;
an unknown name is logged and skipped; a known name is dispatched with its
args (defaulting to `[]` when the `args` key is absent). -/
def listenStep : Line → Except Unit (List LEvent)
  | Line.malformed => Except.error ()
  | Line.env e =>
    match signalFor e.name with
    | none => Except.ok [LEvent.log (unavailMsg e.name)]
    | some sig => Except.ok [LEvent.dispatch sig (e.args.getD [])]

/-- The listener loop over a finite prefix of the inbound channel: the events
produced, and whether the listener thread is still alive afterwards (an
uncaught decode error terminates the thread, dropping all later lines). -/
def listenLoop : List Line → List LEvent × Bool
  | [] => ([], true)
  | l :: ls =>
    match listenStep l with
    | Except.error _ => ([], false)
    | Except.ok evs =>
      let rest := listenLoop ls
      (evs ++ rest.1, rest.2)

/-- The single event produced by a well-formed envelope. -/
def evOf (e : Envelope) : LEvent :=
  match signalFor e.name with
  | none => LEvent.log (unavailMsg e.name)
  | some sig => LEvent.dispatch sig (e.args.getD [])

/-- Counts the dispatch events in a listener trace. -/
def dispatchCount (evs : List LEvent) : Nat :=
  evs.countP (fun ev => match ev with
    | LEvent.dispatch _ _ => true
    | _ => false)

/-- The client registry owned by `Application`: the key set of the
`self.clients` dict (values are `lastSeen` bookkeeping timestamps that the
core never reads, so only the keys are modelled) together with the
`self.current_client` pointer. The key list is kept duplicate-free, matching
dict-key semantics. -/
structure Registry where
  clients : List Nat
  current : Option Nat
  deriving DecidableEq, Repr

/-- The registry at application start: `self.clients = dict()` and
`self.current_client = None`. -/
def Registry.init : Registry := { clients := [], current := none }

/-- `Application.register_client(port)`: sets `self.current_client = port` and
upserts `self.clients[port]`; a port already present keeps its key position,
a fresh port is appended (dict insertion order). -/
def register (port : Nat) (r : Registry) : Registry :=
  { clients := if port ∈ r.clients then r.clients else r.clients ++ [port],
    current := some port }

/-- `Application.deregister_client(port)`: `self.clients.pop(port)` removes the
entry when present and raises `KeyError` (modelled as `Except.error ()`) when
absent; `self.current_client` is never touched. -/
def deregister (port : Nat) (r : Registry) : Except Unit Registry :=
  if port ∈ r.clients then
    Except.ok { r with clients := r.clients.erase port }
  else Except.error ()

/-- A registry operation in a call sequence. -/
inductive Op where
  | reg (port : Nat)
  | dereg (port : Nat)
  deriving DecidableEq, Repr

/-- Runs a sequence of registry calls left to right, counting the register
calls whose port was absent at call time (`fresh`) and the deregister calls
that succeed (`succ`); a failed deregister raises to the caller and leaves
the registry unchanged. Returns `(registry, fresh, succ)`. -/
def runOps : List Op → Registry → Registry × Nat × Nat
  | [], r => (r, 0, 0)
  | Op.reg p :: ops, r =>
    let fresh := if p ∈ r.clients then 0 else 1
    let rest := runOps ops (register p r)
    (rest.1, fresh + rest.2.1, rest.2.2)
  | Op.dereg p :: ops, r =>
    match deregister p r with
    | Except.ok r2 =>
      let rest := runOps ops r2
      (rest.1, rest.2.1, rest.2.2 + 1)
    | Except.error _ =>
      let rest := runOps ops r
      (rest.1, rest.2.1, rest.2.2)

/-- The port of the last `reg` call in a sequence, if any. -/
def lastRegPort : List Op → Option Nat
  | [] => none
  | o :: ops =>
    match lastRegPort ops with
    | some p => some p
    | none =>
      match o with
      | Op.reg p => some p
      | Op.dereg _ => none

/-- The number of distinct ports appearing in `reg` calls of a sequence. -/
def distinctRegPorts (ops : List Op) : Nat :=
  ((ops.filterMap (fun o => match o with
    | Op.reg p => some p
    | Op.dereg _ => none)).dedup).length

/-- `Window.event` on a close request: the accept/ignore decision and the
lines printed. Mirrors the source ordering: Shift pressed accepts with
"Force quitted.."; otherwise `any(state in states for state in
("ready", "finished"))` accepts silently; otherwise the event is ignored and
a diagnostic tells the user to hold SHIFT. -/
def closeEvent (shiftPressed : Bool) (states : List String) : Bool × List String :=
  if shiftPressed then (true, ["Force quitted.."])
  else if ["ready", "finished"].any (fun s => states.contains s) then (true, [])
  else (false, ["Not ready, hold SHIFT to force an exit"])

/-- The visual settings object recognised by `settings.py`: `WindowSize`,
`WindowTitle`, plus extension options stored as an association list. An
incoming (client-side) settings dict may omit any of them. -/
structure ClientSettings where
  windowSize : Option (Nat × Nat)
  windowTitle : Option String
  extra : List (String × String)
  deriving DecidableEq, Repr

/-- Python truthiness of the settings dict: `if client_settings:` is False
exactly for the empty dict (and for `None`, modelled by `Option.none` at the
call site). -/
def ClientSettings.isEmpty (c : ClientSettings) : Bool :=
  c.windowSize.isNone && c.windowTitle.isNone && c.extra.isEmpty

/-- The persistent, process-wide settings store of the `settings` module:
every recognised field always has a value. -/
structure Settings where
  windowSize : Nat × Nat
  windowTitle : String
  extra : List (String × String)
  deriving DecidableEq, Repr

/-- Looks up an extension option by key in an association list. -/
def lookupKey (k : String) : List (String × String) → Option String
  | [] => none
  | (k2, v) :: rest => if k2 = k then some v else lookupKey k rest

/-- Overwrites (or appends) one extension option. -/
def upsertKey (k v : String) : List (String × String) → List (String × String)
  | [] => [(k, v)]
  | (k2, v2) :: rest =>
    if k2 = k then (k, v) :: rest else (k2, v2) :: upsertKey k v rest

/-- Merges incoming extension options into the prior ones, overwriting
matching keys and keeping the rest. -/
def mergeExtra (incoming prior : List (String × String)) : List (String × String) :=
  incoming.foldl (fun acc kv => upsertKey kv.1 kv.2 acc) prior

/-- Modelled from the spec: `settings.from_dict` (the `settings` module is not
part of the provided source) merges a client settings dict into the
persistent store, overwriting only the fields present in the incoming object;
omitted fields retain their prior values, and extension options pass through
without validation. -/
def from_dict (c : ClientSettings) (s : Settings) : Settings :=
  { windowSize := c.windowSize.getD s.windowSize,
    windowTitle := c.windowTitle.getD s.windowTitle,
    extra := mergeExtra c.extra s.extra }

/-- The window state mutated by the orchestration thread. -/
structure WindowState where
  width : Nat
  height : Nat
  title : String
  visible : Bool
  deriving DecidableEq, Repr

/-- The application state the show/hide orchestration reads and writes: the
window, the persistent settings store, and the controller state set
(`self.controller.states`, observed only through membership tests). -/
structure AppState where
  window : WindowState
  settings : Settings
  controllerStates : List String
  deriving DecidableEq, Repr

/-- Observable steps of `Application.show` / `Application.hide`, in the order
performed. -/
inductive Event where
  | setWidth (w : Nat)
  | setHeight (h : Nat)
  | setTitle (t : String)
  | activate
  | showNormal
  | waitReady
  | emitShow
  | reset
  | hideWindow
  | log (msg : String)
  deriving DecidableEq, Repr

/-- The Python exceptions `Application.show` can raise when a truthy
client-settings dict lacks a key it indexes unconditionally. -/
inductive ShowError where
  | keyErrorWindowSize
  | keyErrorWindowTitle
  deriving DecidableEq, Repr

/-- The warning printed when the readiness wait times out. -/
def readyWarning : String := "Warning: Could not enter ready state"

/-- The `if client_settings:` block of `Application.show`: merge via
`settings.from_dict(client_settings)`, then `window.setWidth/CSetHeight` from
`client_settings["WindowSize"]` and `window.setTitle` from
`client_settings["WindowTitle"]` — direct dict indexing that raises
`KeyError` when the key is absent from a truthy dict. -/
def applySettings (cs : Option ClientSettings) (st : AppState) :
    Except ShowError (AppState × List Event) :=
  match cs with
  | none => Except.ok (st, [])
  | some c =>
    if c.isEmpty then Except.ok (st, [])
    else
      let st1 := { st with settings := from_dict c st.settings }
      match c.windowSize with
      | none => Except.error ShowError.keyErrorWindowSize
      | some wh =>
        let st2 := { st1 with window :=
          { st1.window with width := wh.1, height := wh.2 } }
        match c.windowTitle with
        | none => Except.error ShowError.keyErrorWindowTitle
        | some t =>
          Except.ok ({ st2 with window := { st2.window with title := t } },
            [Event.setWidth wh.1, Event.setHeight wh.2, Event.setTitle t])

/-- The readiness gate of `Application.show`: entered only when
`self.controller.states` contains neither "ready" nor "finished"; inside, a
signal spy waits up to 1000 ms for one `ready` emission (`readyArrives`
abstracts whether it arrives in time) and the warning is printed exactly when
it does not. The gate never raises. -/
def gateEvents (states : List String) (readyArrives : Bool) : List Event :=
  if "ready" ∈ states ∨ "finished" ∈ states then []
  else Event.waitReady :: (if readyArrives then [] else [Event.log readyWarning])

/-- The unconditional tail of `Application.show` after the settings block:
`requestActivate`, `showNormal` (the window becomes visible), the readiness
gate, then `controller.show.emit()` and `controller.reset()`. The
settings dump print and the Windows-only z-order flag toggle are diagnostic
or platform details with no bearing on the specified properties and are not
modelled. -/
def showTail (st : AppState) (readyArrives : Bool) : AppState × List Event :=
  ({ st with window := { st.window with visible := true } },
    [Event.activate, Event.showNormal]
      ++ gateEvents st.controllerStates readyArrives
      ++ [Event.emitShow, Event.reset])

/-- `Application.show(client_settings)`: the settings block followed by the
unconditional tail. `readyArrives` abstracts the outcome of the 1000 ms
readiness wait. -/
def showApp (cs : Option ClientSettings) (readyArrives : Bool) (st : AppState) :
    Except ShowError (AppState × List Event) :=
  match applySettings cs st with
  | Except.error e => Except.error e
  | Except.ok res =>
    let tail := showTail res.1 readyArrives
    Except.ok (tail.1, res.2 ++ tail.2)

/-- `Application.hide`: `self.window.hide()` and nothing else. -/
def hide (st : AppState) : AppState × List Event :=
  ({ st with window := { st.window with visible := false } }, [Event.hideWindow])

/-- A concrete application state used to instantiate theorems: default-sized
window, default settings, controller mid-processing. -/
def demoSt : AppState :=
  { window := { width := 430, height := 300, title := "Pyblish", visible := false },
    settings := { windowSize := (430, 300), windowTitle := "Pyblish", extra := [] },
    controllerStates := ["processing"] }

/-- The state `showApp none false demoSt` produces. -/
def demoSt2 : AppState :=
  { demoSt with window := { demoSt.window with visible := true } }

/-- The event trace `showApp none false demoSt` produces. -/
def demoEvs : List Event :=
  [Event.activate, Event.showNormal, Event.waitReady, Event.log readyWarning,
   Event.emitShow, Event.reset]

theorem listenLoop_env_map (es : List Envelope) :
    listenLoop (es.map Line.env) = (es.map evOf, true) := by
  induction es with
  | nil => rfl
  | cons e es ih =>
    simp only [List.map_cons, listenLoop, listenStep, evOf]
    cases h : signalFor e.name <;> simp [listenLoop, h, ih]

theorem listenLoop_append_env (es : List Envelope) (ls : List Line) :
    listenLoop (es.map Line.env ++ ls) =
      (es.map evOf ++ (listenLoop ls).1, (listenLoop ls).2) := by
  induction es with
  | nil => rfl
  | cons e es ih =>
    simp only [List.map_cons, List.cons_append, listenLoop, listenStep]
    cases h : signalFor e.name <;> simp [evOf, h, ih]

theorem register_nodup (p : Nat) (r : Registry)
    (h : r.clients.Nodup) : (register p r).clients.Nodup := by
  unfold register
  by_cases hp : p ∈ r.clients <;> simp [hp, h, List.nodup_append]

theorem runOps_size (ops : List Op) (r : Registry) :
    (runOps ops r).1.clients.length + (runOps ops r).2.2
      = r.clients.length + (runOps ops r).2.1 := by
  induction ops generalizing r with
  | nil => rfl
  | cons o ops ih =>
    cases o with
    | reg p =>
      have hreg := ih (register p r)
      by_cases hp : p ∈ r.clients
      · simp only [runOps, register, hp, if_pos] at *
        omega
      · simp only [runOps, register, hp, if_neg, not_false_iff,
          List.length_append, List.length_cons, List.length_nil] at *
        omega
    | dereg p =>
      by_cases hp : p ∈ r.clients
      · have hpos : 0 < r.clients.length := List.length_pos.mpr (by
          intro hnil; rw [hnil] at hp; exact List.not_mem_nil p hp)
        have herase : (r.clients.erase p).length = r.clients.length - 1 :=
          List.length_erase_of_mem hp
        simp only [runOps, deregister, hp, if_pos]
        have := ih { r with clients := r.clients.erase p }
        simp only at this
        omega
      · simp only [runOps, deregister, hp, if_neg, not_false_iff]
        exact ih r

theorem runOps_current (ops : List Op) (r : Registry) :
    (runOps ops r).1.current =
      (match lastRegPort ops with
       | some p => some p
       | none => r.current) := by
  induction ops generalizing r with
  | nil => rfl
  | cons o ops ih =>
    cases o with
    | reg p =>
      simp only [runOps, lastRegPort]
      rw [ih (register p r)]
      cases h : lastRegPort ops <;> simp [register]
    | dereg p =>
      simp only [runOps, lastRegPort]
      by_cases hp : p ∈ r.clients
      · simp only [deregister, hp, if_pos]
        rw [ih { r with clients := r.clients.erase p }]
        cases h : lastRegPort ops <;> simp
      · simp only [deregister, hp, if_neg, not_false_iff]
        rw [ih r]
        cases h : lastRegPort ops <;> simp

theorem lookupKey_upsertKey (k k2 v : String) (l : List (String × String)) :
    lookupKey k (upsertKey k2 v l) = if k2 = k then some v else lookupKey k l := by
  induction l with
  | nil => simp [upsertKey, lookupKey]
  | cons kv rest ih =>
    obtain ⟨k3, v3⟩ := kv
    by_cases h1 : k3 = k2 <;> by_cases h2 : k2 = k <;> by_cases h3 : k3 = k <;>
      simp_all [upsertKey, lookupKey]

theorem lookupKey_mergeExtra (inc : List (String × String)) (k : String)
    (h : lookupKey k inc = none) (prior : List (String × String)) :
    lookupKey k (mergeExtra inc prior) = lookupKey k prior := by
  induction inc generalizing prior with
  | nil => rfl
  | cons kv rest ih =>
    obtain ⟨k2, v⟩ := kv
    simp only [lookupKey] at h
    by_cases hk : k2 = k
    · simp [hk] at h
    · simp only [hk, if_neg, not_false_iff] at h
      have step : mergeExtra ((k2, v) :: rest) prior
          = mergeExtra rest (upsertKey k2 v prior) := rfl
      rw [step, ih h (upsertKey k2 v prior), lookupKey_upsertKey, if_neg hk]

theorem applySettings_ok (cs : Option ClientSettings) (st : AppState)
    (st1 : AppState) (evs1 : List Event)
    (h : applySettings cs st = Except.ok (st1, evs1)) :
    st1.controllerStates = st.controllerStates ∧
    (evs1 = [] ∨ ∃ w hh t,
      evs1 = [Event.setWidth w, Event.setHeight hh, Event.setTitle t]) := by
  cases cs with
  | none =>
    simp only [applySettings, Except.ok.injEq, Prod.mk.injEq] at h
    obtain ⟨h1, h2⟩ := h
    subst h1; subst h2
    exact ⟨rfl, Or.inl rfl⟩
  | some c =>
    by_cases hc : c.isEmpty
    · simp only [applySettings, hc, if_pos, Except.ok.injEq, Prod.mk.injEq] at h
      obtain ⟨h1, h2⟩ := h
      subst h1; subst h2
      exact ⟨rfl, Or.inl rfl⟩
    · cases hws : c.windowSize with
      | none => simp [applySettings, hc, hws] at h
      | some wh =>
        cases hwt : c.windowTitle with
        | none => simp [applySettings, hc, hws, hwt] at h
        | some t =>
          simp only [applySettings, hc, hws, hwt, if_neg, Bool.not_eq_true,
            Except.ok.injEq, Prod.mk.injEq] at h
          obtain ⟨h1, h2⟩ := h
          subst h1; subst h2
          exact ⟨rfl, Or.inr ⟨wh.1, wh.2, t, rfl⟩⟩

theorem gateEvents_shape (states : List String) (r : Bool) (ev : Event)
    (h : ev ∈ gateEvents states r) :
    ev = Event.waitReady ∨ ev = Event.log readyWarning := by
  unfold gateEvents at h
  by_cases hs : "ready" ∈ states ∨ "finished" ∈ states
  · simp [hs] at h
  · simp only [hs, if_neg, not_false_iff, List.mem_cons] at h
    cases h with
    | inl h => exact Or.inl h
    | inr h =>
      cases r with
      | true => simp at h
      | false => simp at h; exact Or.inr h

/-- C1 counterexample: one structurally malformed line followed by a valid
`show` line yields zero show dispatches — not one — and the listener thread
terminates: the `try` in `_listen` wraps only the `emit` call, so the error
raised by `json.loads(line)["payload"]` propagates and kills the loop. -/
theorem listener_malformed_cex :
    dispatchCount (listenLoop [Line.malformed, Line.env ⟨"show", none⟩]).1 = 0
  ∧ (listenLoop [Line.malformed, Line.env ⟨"show", none⟩]).2 = false := by
  exact ⟨rfl, rfl⟩

/-- C1 (amended): the listener survives unknown-name lines — N well-formed
envelopes with unknown names followed by one valid `show` line yield exactly
N logged diagnostics, then exactly one show dispatch, and the loop lives on —
but a structurally malformed line (bad JSON, missing `payload` or `name`)
raises an uncaught decode error that terminates the listener loop and drops
every later line. -/
theorem listener_resilience_amended (es : List Envelope)
    (h : ∀ e ∈ es, signalFor e.name = none) (ls : List Line) :
    listenLoop (es.map Line.env ++ [Line.env ⟨"show", none⟩]) =
      (es.map (fun e => LEvent.log (unavailMsg e.name))
        ++ [LEvent.dispatch "shown" []], true)
  ∧ listenLoop (Line.malformed :: ls) = ([], false) := by
  constructor
  · rw [listenLoop_append_env]
    have hmap : es.map evOf = es.map (fun e => LEvent.log (unavailMsg e.name)) :=
      List.map_congr_left (fun e he => by simp [evOf, h e he])
    rw [hmap]
    rfl
  · rfl

/-- C1 witness: two unknown-name lines then a valid `show` line give two
diagnostics and one dispatch; a single malformed line kills the loop. -/
theorem listener_resilience_amended_witness :
    listenLoop [Line.env ⟨"bogus", none⟩, Line.env ⟨"nope", none⟩,
        Line.env ⟨"show", none⟩] =
      ([LEvent.log (unavailMsg "bogus"), LEvent.log (unavailMsg "nope"),
        LEvent.dispatch "shown" []], true)
  ∧ listenLoop [Line.malformed] = ([], false) := by
  have h := listener_resilience_amended [⟨"bogus", none⟩, ⟨"nope", none⟩]
    (by decide) []
  simpa using h

/-- C3: every well-formed envelope whose name is in the dispatch table
produces exactly one dispatch of the mapped signal with its args passed
through unchanged (an absent `args` key becomes the empty sequence), in the
order the lines were read, and the listener stays alive. -/
theorem listener_dispatch_total (es : List Envelope)
    (h : ∀ e ∈ es, (signalFor e.name).isSome) :
    listenLoop (es.map Line.env) =
      (es.map (fun e =>
        LEvent.dispatch ((signalFor e.name).getD "") (e.args.getD [])), true) := by
  rw [listenLoop_env_map]
  have hmap : ∀ e ∈ es,
      evOf e = LEvent.dispatch ((signalFor e.name).getD "") (e.args.getD []) := by
    intro e he
    have hsome := h e he
    unfold evOf
    cases hs : signalFor e.name with
    | none => rw [hs] at hsome; simp at hsome
    | some s => simp [hs]
  rw [List.map_congr_left hmap]

/-- C3 witness: a `show` with args and a `quit` without args dispatch in
order as `shown` with those args and `quitted` with the empty sequence. -/
theorem listener_dispatch_total_witness :
    listenLoop [Line.env ⟨"show", some ["a", "b"]⟩, Line.env ⟨"quit", none⟩] =
      ([LEvent.dispatch "shown" ["a", "b"], LEvent.dispatch "quitted" []], true) := by
  have h := listener_dispatch_total [⟨"show", some ["a", "b"]⟩, ⟨"quit", none⟩]
    (by decide)
  simpa using h

/-- C4: a well-formed envelope whose name is outside {show, hide, quit} makes
the listener print the diagnostic built from the offending name, dispatch
nothing for it, and continue with the remaining lines unchanged. -/
theorem listener_unknown_name (e : Envelope) (ls : List Line)
    (h : signalFor e.name = none) :
    listenLoop (Line.env e :: ls) =
      (LEvent.log (unavailMsg e.name) :: (listenLoop ls).1, (listenLoop ls).2) := by
  simp [listenLoop, listenStep, h]

/-- C4 witness: the envelope named "bogus" yields only the diagnostic and the
loop survives. -/
theorem listener_unknown_name_witness :
    listenLoop [Line.env ⟨"bogus", none⟩]
      = ([LEvent.log (unavailMsg "bogus")], true) := by
  have h := listener_unknown_name ⟨"bogus", none⟩ [] (by decide)
  simpa using h

/-- C2 counterexample: for the sequence register(1), deregister(1),
register(1) the registry holds one entry, but the number of register calls on
distinct ports (1) minus the number of successful deregisters (1) is 0. -/
theorem registry_size_cex :
    ¬ ((runOps [Op.reg 1, Op.dereg 1, Op.reg 1] Registry.init).1.clients.length
        = distinctRegPorts [Op.reg 1, Op.dereg 1, Op.reg 1]
          - (runOps [Op.reg 1, Op.dereg 1, Op.reg 1] Registry.init).2.2) := by
  decide

/-- C2 (amended): over any call sequence, the registry size plus the number
of successful deregisters equals the initial size plus the number of register
calls whose port was absent at call time (so re-registering a previously
deregistered port counts again), and currentClient equals the port of the
most recent register call — deregister calls, including of the current port,
never change it. -/
theorem registry_invariant_amended (ops : List Op) (r0 : Registry) :
    (runOps ops r0).1.clients.length + (runOps ops r0).2.2
        = r0.clients.length + (runOps ops r0).2.1
  ∧ (runOps ops r0).1.current =
      (match lastRegPort ops with
       | some p => some p
       | none => r0.current) :=
  ⟨runOps_size ops r0, runOps_current ops r0⟩

/-- C8: deregister removes a present port and raises KeyError ("not found")
on an absent one; after register(p) the first deregister(p) succeeds and an
immediately repeated deregister(p) fails. Requires the registry key list to
be duplicate-free, as dict keys are. -/
theorem deregister_spec (r : Registry) (p : Nat) (hnd : r.clients.Nodup) :
    (p ∈ r.clients → ∃ r2, deregister p r = Except.ok r2
        ∧ r2.clients = r.clients.erase p ∧ r2.current = r.current)
  ∧ (p ∉ r.clients → deregister p r = Except.error ())
  ∧ (∃ r2, deregister p (register p r) = Except.ok r2
        ∧ deregister p r2 = Except.error ()) := by
  refine ⟨?_, ?_, ?_⟩
  · intro hp
    exact ⟨{ r with clients := r.clients.erase p },
      by simp [deregister, hp], rfl, rfl⟩
  · intro hp
    simp [deregister, hp]
  · have hmem : p ∈ (register p r).clients := by
      unfold register
      by_cases hp : p ∈ r.clients <;> simp [hp]
    have hnd2 : (register p r).clients.Nodup := register_nodup p r hnd
    refine ⟨{ register p r with clients := (register p r).clients.erase p },
      by simp [deregister, hmem], ?_⟩
    have hout : p ∉ (register p r).clients.erase p := hnd2.not_mem_erase
    simp [deregister, hout]

/-- C8 witness: on the empty registry deregister(5000) raises, and after
register(5000) the first deregister succeeds while the second raises. -/
theorem deregister_spec_witness :
    deregister 5000 Registry.init = Except.error ()
  ∧ (∃ r2, deregister 5000 (register 5000 Registry.init) = Except.ok r2
        ∧ deregister 5000 r2 = Except.error ()) := by
  have h := deregister_spec Registry.init 5000 (by decide)
  exact ⟨h.2.1 (by decide), h.2.2⟩

/-- C5: the close decision follows the ordered table — Shift accepts
unconditionally, otherwise a controller state set containing "ready" or
"finished" accepts, otherwise the event is ignored (window stays open) and
the diagnostic instructing the user to hold SHIFT is printed. -/
theorem close_policy (shiftPressed : Bool) (states : List String) :
    closeEvent shiftPressed states =
      (if shiftPressed then (true, ["Force quitted.."])
       else if "ready" ∈ states ∨ "finished" ∈ states then (true, [])
       else (false, ["Not ready, hold SHIFT to force an exit"])) := by
  unfold closeEvent
  cases shiftPressed with
  | true => rfl
  | false =>
    by_cases h : "ready" ∈ states ∨ "finished" ∈ states
    · have hany : (["ready", "finished"].any fun s => states.contains s) = true := by
        simp only [List.any_cons, List.any_nil, Bool.or_false, Bool.or_eq_true]
        rcases h with h | h
        · exact Or.inl (by simpa using h)
        · exact Or.inr (by simpa using h)
      simp [hany, h]
    · have h2 := h
      push_neg at h
      have hany : (["ready", "finished"].any fun s => states.contains s) = false := by
        simp only [List.any_cons, List.any_nil, Bool.or_false, Bool.or_eq_false_iff]
        exact ⟨by simpa using h.1, by simpa using h.2⟩
      simp [hany, h2]

/-- C6: whenever show() completes, the controller show signal and reset are
performed; the readiness wait is entered exactly when the controller state
set contains neither "ready" nor "finished"; and the warning is recorded
exactly when the wait is entered and the ready notification does not arrive
in time — a timeout never aborts the show. The 1000 ms wait outcome is
abstracted by `readyArrives`. -/
theorem show_readiness_gate (cs : Option ClientSettings) (readyArrives : Bool)
    (st st2 : AppState) (evs : List Event)
    (h : showApp cs readyArrives st = Except.ok (st2, evs)) :
    (Event.emitShow ∈ evs ∧ Event.reset ∈ evs)
  ∧ (Event.waitReady ∈ evs ↔
      ¬ ("ready" ∈ st.controllerStates ∨ "finished" ∈ st.controllerStates))
  ∧ (Event.log readyWarning ∈ evs ↔
      (¬ ("ready" ∈ st.controllerStates ∨ "finished" ∈ st.controllerStates)
        ∧ readyArrives = false)) := by
  unfold showApp at h
  cases happ : applySettings cs st with
  | error e => rw [happ] at h; exact absurd h (by simp)
  | ok res =>
    rw [happ] at h
    obtain ⟨st1, evs1⟩ := res
    obtain ⟨hstates, hshape⟩ := applySettings_ok cs st st1 evs1 happ
    simp only [showTail, Except.ok.injEq, Prod.mk.injEq] at h
    obtain ⟨h1, h2⟩ := h
    subst h2
    rw [hstates]
    have hw : Event.waitReady ∉ evs1 := by
      rcases hshape with hnil | ⟨w, hh, t, hcons⟩ <;> subst_vars <;> simp
    have hl : Event.log readyWarning ∉ evs1 := by
      rcases hshape with hnil | ⟨w, hh, t, hcons⟩ <;> subst_vars <;> simp
    refine ⟨⟨?_, ?_⟩, ?_, ?_⟩
    · simp
    · simp
    · by_cases hready : "ready" ∈ st.controllerStates ∨ "finished" ∈ st.controllerStates
      · simp [gateEvents, hready, hw]
      · simp [gateEvents, hready, hw]
    · by_cases hready : "ready" ∈ st.controllerStates ∨ "finished" ∈ st.controllerStates
      · simp [gateEvents, hready, hl]
      · cases readyArrives <;> simp [gateEvents, hready, hl]

/-- C6 witness: from a "processing" controller with no ready notification,
show() still completes, the wait is entered, the warning is recorded and the
show signal and reset are performed. -/
theorem show_readiness_gate_witness :
    (Event.emitShow ∈ demoEvs ∧ Event.reset ∈ demoEvs)
  ∧ (Event.waitReady ∈ demoEvs ↔
      ¬ ("ready" ∈ demoSt.controllerStates ∨ "finished" ∈ demoSt.controllerStates))
  ∧ (Event.log readyWarning ∈ demoEvs ↔
      (¬ ("ready" ∈ demoSt.controllerStates ∨ "finished" ∈ demoSt.controllerStates)
        ∧ false = false)) :=
  show_readiness_gate none false demoSt demoSt2 demoEvs rfl

/-- C7 counterexample: a partial settings object that omits WindowSize (here
only WindowTitle is supplied) does not make show() succeed — the source
indexes `client_settings["WindowSize"]` unconditionally inside the truthy
branch, raising KeyError. -/
theorem show_partial_settings_cex :
    showApp (some ⟨none, some "A", []⟩) true demoSt
      = Except.error ShowError.keyErrorWindowSize := rfl

/-- C7 (amended): the settings merge overwrites only fields present in the
incoming object and omitted fields (including extension options) retain
prior values; but show() requires WindowSize and WindowTitle to both be
present in any non-empty settings object — a partial object missing
WindowSize (or, with WindowSize present, missing WindowTitle) makes show()
raise KeyError; when both are present show() succeeds, resizes and retitles
the window and stores the merged settings. -/
theorem settings_merge_amended (c : ClientSettings) (s : Settings)
    (st : AppState) (r : Bool) (w hh : Nat) (t : String) :
    (c.windowSize = none → (from_dict c s).windowSize = s.windowSize)
  ∧ (c.windowTitle = none → (from_dict c s).windowTitle = s.windowTitle)
  ∧ (∀ k, lookupKey k c.extra = none →
      lookupKey k (from_dict c s).extra = lookupKey k s.extra)
  ∧ (c.isEmpty = false → c.windowSize = none →
      showApp (some c) r st = Except.error ShowError.keyErrorWindowSize)
  ∧ (c.windowSize = some (w, hh) → c.windowTitle = none →
      showApp (some c) r st = Except.error ShowError.keyErrorWindowTitle)
  ∧ (c.windowSize = some (w, hh) → c.windowTitle = some t →
      ∃ st2 evs, showApp (some c) r st = Except.ok (st2, evs)
        ∧ st2.window.width = w ∧ st2.window.height = hh ∧ st2.window.title = t
        ∧ st2.settings = from_dict c st.settings) := by
  refine ⟨?_, ?_, ?_, ?_, ?_, ?_⟩
  · intro hws; simp [from_dict, hws]
  · intro hwt; simp [from_dict, hwt]
  · intro k hk; simp only [from_dict]; exact lookupKey_mergeExtra c.extra k hk s.extra
  · intro hne hws
    simp [showApp, applySettings, hne, hws]
  · intro hws hwt
    have hne : c.isEmpty = false := by
      simp [ClientSettings.isEmpty, hws]
    simp [showApp, applySettings, hne, hws, hwt]
  · intro hws hwt
    have hne : c.isEmpty = false := by
      simp [ClientSettings.isEmpty, hws]
    refine ⟨{ window := { width := w, height := hh, title := t, visible := true },
              settings := from_dict c st.settings,
              controllerStates := st.controllerStates },
            [Event.setWidth w, Event.setHeight hh, Event.setTitle t,
             Event.activate, Event.showNormal]
              ++ gateEvents st.controllerStates r
              ++ [Event.emitShow, Event.reset], ?_, rfl, rfl, rfl, rfl⟩
    simp [showApp, applySettings, hne, hws, hwt, showTail]

/-- C7 witness: with prior title "Pyblish" and an extension option left out
of the incoming object, the merge keeps them; a WindowTitle-only object makes
show() raise KeyError for WindowSize; a full object succeeds and applies both
fields. -/
theorem settings_merge_amended_witness :
    ((from_dict ⟨none, some "A", []⟩ demoSt.settings).windowSize
        = demoSt.settings.windowSize)
  ∧ showApp (some ⟨none, some "A", []⟩) false demoSt
      = Except.error ShowError.keyErrorWindowSize
  ∧ (∃ st2 evs,
      showApp (some ⟨some (800, 600), some "Test", []⟩) false demoSt
        = Except.ok (st2, evs)
      ∧ st2.window.width = 800 ∧ st2.window.height = 600
      ∧ st2.window.title = "Test"
      ∧ st2.settings = from_dict ⟨some (800, 600), some "Test", []⟩ demoSt.settings) := by
  refine ⟨?_, ?_, ?_⟩
  · exact (settings_merge_amended ⟨none, some "A", []⟩ demoSt.settings demoSt false
      0 0 "A").1 rfl
  · exact (settings_merge_amended ⟨none, some "A", []⟩ demoSt.settings demoSt false
      0 0 "A").2.2.2.1 (by decide) rfl
  · exact (settings_merge_amended ⟨some (800, 600), some "Test", []⟩ demoSt.settings
      demoSt false 800 600 "Test").2.2.2.2.2 rfl rfl

/-- C9 counterexample: the claimed sequence cannot even start — show() with
the partial object {WindowTitle: "A"} raises KeyError on the unconditional
`client_settings["WindowSize"]` lookup before `setTitle` runs, so the window
never becomes titled "A" (the demo window keeps its prior title). -/
theorem hide_show_title_cex :
    showApp (some ⟨none, some "A", []⟩) false demoSt
      = Except.error ShowError.keyErrorWindowSize
  ∧ demoSt.window.title ≠ "A" := by
  exact ⟨rfl, by decide⟩

/-- C9 (amended): hide() hides the window and performs no other observable
effect — settings and controller state are untouched and only the
hide-window step runs — and for a full settings object (WindowSize and
WindowTitle both present, as show() requires) the title applied by an earlier
show() persists across hide() and a settings-less show(). -/
theorem hide_show_persistence_amended (st : AppState) (w hh : Nat) (t : String)
    (ex : List (String × String)) (r r2 : Bool) :
    hide st = ({ st with window := { st.window with visible := false } },
      [Event.hideWindow])
  ∧ ∃ st1 evs1 st3 evs3,
      showApp (some ⟨some (w, hh), some t, ex⟩) r st = Except.ok (st1, evs1)
    ∧ showApp none r2 (hide st1).1 = Except.ok (st3, evs3)
    ∧ st3.window.title = t
    ∧ st3.window.width = w
    ∧ st3.window.height = hh
    ∧ st3.window.visible = true
    ∧ st3.settings = (hide st1).1.settings := by
  constructor
  · rfl
  · refine ⟨{ window := { width := w, height := hh, title := t, visible := true },
              settings := from_dict ⟨some (w, hh), some t, ex⟩ st.settings,
              controllerStates := st.controllerStates },
            [Event.setWidth w, Event.setHeight hh, Event.setTitle t,
             Event.activate, Event.showNormal]
              ++ gateEvents st.controllerStates r
              ++ [Event.emitShow, Event.reset],
            { window := { width := w, height := hh, title := t, visible := true },
              settings := from_dict ⟨some (w, hh), some t, ex⟩ st.settings,
              controllerStates := st.controllerStates },
            [Event.activate, Event.showNormal]
              ++ gateEvents st.controllerStates r2
              ++ [Event.emitShow, Event.reset],
            ?_, ?_, rfl, rfl, rfl, rfl, rfl⟩
    · simp [showApp, applySettings, ClientSettings.isEmpty, showTail]
    · simp [showApp, applySettings, showTail, hide]

/-- C10: a falsy settings argument — the empty settings object exactly as the
absent/None default — skips the merge/resize/retitle step entirely: show()
behaves identically in both cases, leaves persistent settings, window size
and title unchanged, and still activates and shows the window, runs the
readiness gate and performs the controller show signal and reset, never
emitting a resize or retitle step. -/
theorem show_falsy_settings (st : AppState) (r : Bool) :
    showApp (some ⟨none, none, []⟩) r st = showApp none r st
  ∧ ∃ st2 evs, showApp none r st = Except.ok (st2, evs)
    ∧ st2.settings = st.settings
    ∧ st2.window.width = st.window.width
    ∧ st2.window.height = st.window.height
    ∧ st2.window.title = st.window.title
    ∧ st2.window.visible = true
    ∧ Event.activate ∈ evs ∧ Event.showNormal ∈ evs
    ∧ Event.emitShow ∈ evs ∧ Event.reset ∈ evs
    ∧ (∀ x, Event.setWidth x ∉ evs)
    ∧ (∀ x, Event.setHeight x ∉ evs)
    ∧ (∀ x, Event.setTitle x ∉ evs) := by
  constructor
  · rfl
  · refine ⟨{ st with window := { st.window with visible := true } },
        [Event.activate, Event.showNormal]
          ++ gateEvents st.controllerStates r
          ++ [Event.emitShow, Event.reset],
        rfl, rfl, rfl, rfl, rfl, rfl, by simp, by simp, by simp, by simp,
        ?_, ?_, ?_⟩
    · intro x hx
      simp only [List.mem_append, List.mem_cons, List.not_mem_nil, or_false] at hx
      rcases hx with (hx | hx) | hx
      · simp at hx
      · exact absurd (gateEvents_shape st.controllerStates r _ hx) (by simp)
      · simp at hx
    · intro x hx
      simp only [List.mem_append, List.mem_cons, List.not_mem_nil, or_false] at hx
      rcases hx with (hx | hx) | hx
      · simp at hx
      · exact absurd (gateEvents_shape st.controllerStates r _ hx) (by simp)
      · simp at hx
    · intro x hx
      simp only [List.mem_append, List.mem_cons, List.not_mem_nil, or_false] at hx
      rcases hx with (hx | hx) | hx
      · simp at hx
      · exact absurd (gateEvents_shape st.controllerStates r _ hx) (by simp)
      · simp at hx

/-- C10 witness: on a concrete state the empty settings object and the None
default give the same show() result. -/
theorem show_falsy_settings_witness :
    showApp (some ⟨none, none, []⟩) false demoSt = showApp none false demoSt :=
  (show_falsy_settings demoSt false).1
